import Mathlib

/-!
Verification of the STREUSLE tagger constraint engine
(`streusle_tagger/models/streusle_tagger.py`).

The Python source is shallowly embedded below:
* pure helper functions become Lean functions on `String`/`List`;
* Python exceptions (`ValueError`, `KeyError`, `AttributeError`) become
  `Except String` results;
* torch tensors of floats become nested `List`s of exact `Int` values
  (the float sentinel `-1e32` is modelled as the exact integer `-(10^32)`;
  no claim here depends on floating-point rounding);
* Python's `str.split`, `str.startswith` and `str.endswith` are modelled by
  structurally recursive functions over the character list of the string, so
  that every definition evaluates inside the kernel.
-/

set_option maxRecDepth 8192

instance {ε α : Type} [DecidableEq ε] [DecidableEq α] : DecidableEq (Except ε α) :=
  fun x y =>
    match x, y with
    | Except.ok a, Except.ok b =>
      if h : a = b then isTrue (by rw [h]) else isFalse (fun hc => h (Except.ok.inj hc))
    | Except.error a, Except.error b =>
      if h : a = b then isTrue (by rw [h]) else isFalse (fun hc => h (Except.error.inj hc))
    | Except.ok _, Except.error _ => isFalse (fun hc => Except.noConfusion hc)
    | Except.error _, Except.ok _ => isFalse (fun hc => Except.noConfusion hc)

/-- Auxiliary for `split_on_char`: `current` holds the (reversed) characters of
the piece being accumulated. -/
def split_on_char_aux (sep : Char) : List Char → List Char → List String
  | current, [] => [String.mk current.reverse]
  | current, c :: rest =>
    if c = sep then
      String.mk current.reverse :: split_on_char_aux sep [] rest
    else
      split_on_char_aux sep (c :: current) rest

/-- Model of Python's `s.split(sep)` for a one-character separator: splits at
every occurrence, keeping empty pieces, and returns `[s]` when `sep` does not
occur (in particular `"".split("-") == [""]`). -/
def split_on_char (sep : Char) (s : String) : List String :=
  split_on_char_aux sep [] s.data

/-- Model of Python's `s.startswith(pre)`: character-wise prefix test. -/
def string_starts_with (s pre : String) : Bool :=
  pre.data.isPrefixOf s.data

/-- Model of Python's `s.endswith(post)`: character-wise suffix test. -/
def string_ends_with (s post : String) : Bool :=
  post.data.isSuffixOf s.data

/-- The fixed set of 17 universal part-of-speech tags (`ALL_UPOS` in the source). -/
def ALL_UPOS : List String :=
  ["X", "INTJ", "VERB", "ADV", "CCONJ", "PUNCT", "ADP",
   "NOUN", "SYM", "ADJ", "PROPN", "DET", "PART", "PRON", "SCONJ", "NUM", "AUX"]

/-- The fixed set of 21 lexical categories (`ALL_LEXCATS` in the source). -/
def ALL_LEXCATS : List String :=
  ["N", "INTJ", "INF.P", "V", "AUX", "PP", "PUNCT",
   "POSS", "X", "PRON.POSS", "SYM", "PRON", "SCONJ",
   "NUM", "DISC", "ADV", "CCONJ", "P", "ADJ", "DET", "INF"]

/-- Embedding of the inner predicate `is_allowed(upos, lexcat)` of
`get_upos_allowed_lexcats` in the source.  The lemma-conditioned rules are
commented out in the source and therefore absent here as well. -/
def is_allowed (upos lexcat : String) : Bool :=
  if string_ends_with lexcat "!@" then true
  else if upos = lexcat then true
  else if (upos, lexcat) ∈ ([("NOUN", "N"), ("PROPN", "N"), ("VERB", "V"),
                             ("ADP", "P"), ("ADV", "P"), ("SCONJ", "P"),
                             ("ADP", "DISC"), ("ADV", "DISC"), ("SCONJ", "DISC"),
                             ("PART", "POSS")] : List (String × String)) then true
  else
    ((string_starts_with lexcat "INF" && upos == "SCONJ") ||
     (upos == "PRON" && (lexcat == "PRON" || lexcat == "PRON.POSS")) ||
     (lexcat == "ADV" && (upos == "ADV" || upos == "PART")))

/-- The set of lexcats allowed for a given UPOS: the lexcats of `ALL_LEXCATS`
for which `is_allowed` holds.  In the source this is the value stored at key
`upos` in the dict built by `get_upos_allowed_lexcats`. -/
def upos_allowed_lexcats (upos : String) : List String :=
  ALL_LEXCATS.filter (fun lexcat => is_allowed upos lexcat)

/-- Embedding of `get_upos_allowed_lexcats()`: the dict mapping each UPOS that
has at least one allowed lexcat to its set of allowed lexcats, modelled as an
association list.  A key is present exactly when some `(upos, lexcat)` pair
was allowed, matching the source's lazy key insertion. -/
def get_upos_allowed_lexcats : List (String × List String) :=
  (ALL_UPOS.filter (fun upos => ¬ (upos_allowed_lexcats upos).isEmpty)).map
    (fun upos => (upos, upos_allowed_lexcats upos))

/-- The closed role alphabet without the synthetic boundary symbols. -/
def eight_roles : List String := ["O", "o", "B", "b", "I_", "i_", "I~", "i~"]

/-- The closed role alphabet accepted by `is_streusle_transition_allowed`,
in the order of the tuple in the source. -/
def valid_tags : List String :=
  ["O", "B", "I_", "I~", "o", "b", "i_", "i~", "START", "END"]

/-- Embedding of `is_streusle_transition_allowed(from_tag, to_tag)`.
Python `raise ValueError(...)` becomes `Except.error`; the final
`return any([...])` becomes the decided disjunction. -/
def is_streusle_transition_allowed (from_tag to_tag : String) : Except String Bool :=
  if from_tag ∉ valid_tags then
    Except.error ("Got invalid from_tag " ++ from_tag)
  else if to_tag ∉ valid_tags then
    Except.error ("Got invalid to_tag " ++ to_tag)
  else if to_tag = "START" ∨ from_tag = "END" then
    Except.ok false
  else if from_tag = "START" then
    Except.ok (decide (to_tag ∈ (["O", "B"] : List String)))
  else if to_tag = "END" then
    Except.ok (decide (from_tag ∈ (["O", "I_", "I~"] : List String)))
  else
    Except.ok (decide (
      (from_tag ∈ (["B", "o"] : List String) ∧ to_tag ∈ (["o", "b", "I_", "I~"] : List String)) ∨
      (from_tag ∈ (["b"] : List String) ∧ to_tag ∈ (["i_", "i~"] : List String)) ∨
      (from_tag ∈ (["O"] : List String) ∧ to_tag ∈ (["O", "B"] : List String)) ∨
      (from_tag ∈ (["I_", "I~"] : List String) ∧ to_tag ∉ (["i_", "i~"] : List String)) ∨
      (from_tag ∈ (["i_", "i~"] : List String) ∧ to_tag ∉ (["O", "B"] : List String))))

/-- The pure boolean value computed by `is_streusle_transition_allowed` once
both tags have passed validation (proof-side companion of the embedding). -/
def streusle_transition_bool (from_tag to_tag : String) : Bool :=
  if to_tag = "START" ∨ from_tag = "END" then false
  else if from_tag = "START" then decide (to_tag ∈ (["O", "B"] : List String))
  else if to_tag = "END" then decide (from_tag ∈ (["O", "I_", "I~"] : List String))
  else
    decide (
      (from_tag ∈ (["B", "o"] : List String) ∧ to_tag ∈ (["o", "b", "I_", "I~"] : List String)) ∨
      (from_tag ∈ (["b"] : List String) ∧ to_tag ∈ (["i_", "i~"] : List String)) ∨
      (from_tag ∈ (["O"] : List String) ∧ to_tag ∈ (["O", "B"] : List String)) ∨
      (from_tag ∈ (["I_", "I~"] : List String) ∧ to_tag ∉ (["i_", "i~"] : List String)) ∨
      (from_tag ∈ (["i_", "i~"] : List String) ∧ to_tag ∉ (["O", "B"] : List String)))

/-- Role extraction used by `streusle_allowed_transitions`: the synthetic
labels `START`/`END` decompose to themselves, every other label to the first
dash-delimited component of the label string. -/
def tag_of_label (label : String) : String :=
  if label = "START" ∨ label = "END" then label
  else (split_on_char '-' label).headD ""

/-- Model of Python's `dict.items()` for a vocabulary `{0: l0, 1: l1, ...}`:
pairs each label with its index, starting at `i`. -/
def enum_from (i : Nat) : List String → List (Nat × String)
  | [] => []
  | l :: rest => (i, l) :: enum_from (i + 1) rest

/-- The label alphabet augmented with the synthetic boundary labels, as built
by `streusle_allowed_transitions`: `START` at index `num_labels` and `END` at
index `num_labels + 1`. -/
def labels_with_boundaries (labels : List String) : List (Nat × String) :=
  enum_from 0 labels ++ [(labels.length, "START"), (labels.length + 1, "END")]

/-- Inner loop of `streusle_allowed_transitions`: all allowed pairs with a
fixed origin entry, in destination order; the first invalid role encountered
aborts the whole computation. -/
def transitions_from (from_entry : Nat × String) :
    List (Nat × String) → Except String (List (Nat × Nat))
  | [] => Except.ok []
  | to_entry :: rest => do
    let b ← is_streusle_transition_allowed (tag_of_label from_entry.2) (tag_of_label to_entry.2)
    let tail ← transitions_from from_entry rest
    Except.ok (if b then (from_entry.1, to_entry.1) :: tail else tail)

/-- Outer loop of `streusle_allowed_transitions`: iterates origins, appending
the allowed pairs of each origin. -/
def transitions_all (tos : List (Nat × String)) :
    List (Nat × String) → Except String (List (Nat × Nat))
  | [] => Except.ok []
  | from_entry :: rest => do
    let head ← transitions_from from_entry tos
    let tail ← transitions_all tos rest
    Except.ok (head ++ tail)

/-- Embedding of `streusle_allowed_transitions(labels)` for a vocabulary
`{0: labels[0], 1: labels[1], ...}`: the list of allowed
`(from_label_index, to_label_index)` pairs over the augmented alphabet, or the
first `ValueError` raised by the transition predicate. -/
def streusle_allowed_transitions (labels : List String) : Except String (List (Nat × Nat)) :=
  transitions_all (labels_with_boundaries labels) (labels_with_boundaries labels)

/-- Proof-side pure value of `transitions_from` when no role is invalid. -/
def transitions_from_pure (from_entry : Nat × String) (tos : List (Nat × String)) :
    List (Nat × Nat) :=
  (tos.filter (fun to_entry =>
    streusle_transition_bool (tag_of_label from_entry.2) (tag_of_label to_entry.2))).map
      (fun to_entry => (from_entry.1, to_entry.1))

/-- Proof-side pure value of `transitions_all` when no role is invalid. -/
def transitions_all_pure (tos froms : List (Nat × String)) : List (Nat × Nat) :=
  froms.flatMap (fun from_entry => transitions_from_pure from_entry tos)

/-- The per-label entry of the per-UPOS admissibility vector built in
`StreusleTagger.__init__`: 1 when the label is allowed under `upos`,
0 otherwise. -/
def upos_label_mask_entry (upos label : String) : Int :=
  if (split_on_char '-' label).length = 1 then 1
  else if ¬ (string_starts_with label "O-") ∧ ¬ (string_starts_with label "o-") then 1
  else if (split_on_char '-' label).getD 1 "" ∈ upos_allowed_lexcats upos then 1
  else 0

/-- The per-UPOS admissibility vector `self._upos_to_label_mask[upos]` over a
label alphabet `{0: labels[0], ...}`. -/
def upos_label_mask (upos : String) (labels : List String) : List Int :=
  labels.map (upos_label_mask_entry upos)

/-- The all-disallowed sentinel used when initializing the batch constraint
mask (`-1e32` in the source, modelled exactly). -/
def neg_sentinel : Int := -(10 ^ 32)

/-- Model of Python tuple-unpacking `a, b = s` for a string `s`: succeeds with
the two one-character strings exactly when `s` has two characters, and raises
`ValueError` otherwise. -/
def unpack_two (s : String) : Except String (String × String) :=
  match s.data with
  | [c1, c2] => Except.ok (String.singleton c1, String.singleton c2)
  | _ => Except.error ("ValueError: cannot unpack " ++ s ++ " into two values")

/-- Dict access `self._upos_to_label_mask[upos]`: the dict is keyed by exactly
the members of `ALL_UPOS`, so any other key raises `KeyError`. -/
def upos_to_label_mask (labels : List String) (upos : String) : Except String (List Int) :=
  if upos ∈ ALL_UPOS then Except.ok (upos_label_mask upos labels)
  else Except.error ("KeyError: " ++ upos)

/-- Inner loop of `get_upos_constraint_mask` over one example, embedded as
written in the source: each element of `example_upos_tags` is tuple-unpacked
into `(timestep_upos_tag, timestep_lemma)` (a bug: the element is a single
UPOS string, not a pair), then the row at the current timestep is replaced by
the per-UPOS vector for the unpacked first component. -/
def fill_example_rows (labels : List String) (rows : List (List Int)) :
    List String → Nat → Except String (List (List Int))
  | [], _ => Except.ok rows
  | u :: rest, timestep => do
    let pair ← unpack_two u
    let row ← upos_to_label_mask labels pair.1
    fill_example_rows labels (rows.set timestep row) rest (timestep + 1)

/-- Outer loop of `get_upos_constraint_mask` over the batch: iterates
`zip(batch_upos_tags, batch_lemmas)` (so the lemmas only bound the number of
examples processed; their values are unused). -/
def fill_batch (labels : List String) (masks : List (List (List Int))) :
    List (List String × List String) → Nat → Except String (List (List (List Int)))
  | [], _ => Except.ok masks
  | e :: rest, ex => do
    let rows ← fill_example_rows labels (masks.getD ex []) e.1 0
    fill_batch labels (masks.set ex rows) rest (ex + 1)

/-- Embedding of `StreusleTagger.get_upos_constraint_mask`: a tensor of shape
(batch size, max sequence length, number of labels) initialized to the
`-1e32` sentinel, whose rows are then filled per token; any Python exception
raised during the fill is surfaced as `Except.error`. -/
def get_upos_constraint_mask (labels : List String)
    (batch_upos_tags batch_lemmas : List (List String)) :
    Except String (List (List (List Int))) :=
  if batch_upos_tags.isEmpty then
    Except.error "ValueError: max() arg is an empty sequence"
  else
    let max_len := (batch_upos_tags.map List.length).foldl max 0
    let init := List.replicate batch_upos_tags.length
      (List.replicate max_len (List.replicate labels.length neg_sentinel))
    fill_batch labels init (batch_upos_tags.zip batch_lemmas) 0

/-- The attributes of a `StreusleTagger` instance that the constraint path of
`forward` reads.  `use_lemma_constraints` is read by `forward` but never
assigned by `__init__`; the missing attribute is modelled as `none`, and
reading it raises `AttributeError`. -/
structure StreusleTaggerAttrs where
  use_upos_constraints : Bool
  use_lemma_constraints : Option Bool

/-- Embedding of the attribute assignments of `StreusleTagger.__init__`
relevant to the constraint path: `use_upos_constraints` is stored, and no
`use_lemma_constraints` attribute is ever created. -/
def streusle_tagger_init (use_upos_constraints : Bool) : StreusleTaggerAttrs :=
  { use_upos_constraints := use_upos_constraints, use_lemma_constraints := none }

/-- Python attribute read `self.use_lemma_constraints`. -/
def read_use_lemma_constraints (m : StreusleTaggerAttrs) : Except String Bool :=
  match m.use_lemma_constraints with
  | some b => Except.ok b
  | none => Except.error
      "AttributeError: StreusleTagger object has no attribute use_lemma_constraints"

/-- Modelled from the spec: allennlp's `util.replace_masked_values`, the
masked-value replacement combining logits with the per-token mask — entries
whose mask value is 1 are kept, all others are driven to the `-1e32`
sentinel.  (allennlp is an external collaborator; its code is not in this
repository.) -/
def replace_masked_values (tensor mask : List (List (List Int))) : List (List (List Int)) :=
  tensor.zipWith (fun t2 m2 =>
    t2.zipWith (fun t1 m1 =>
      t1.zipWith (fun x m => if m = 1 then x else neg_sentinel) m1) m2) mask

/-- Embedding of the constrained-logits computation of
`StreusleTagger.forward`: the value bound to `constrained_logits` before it is
handed to `self.crf.viterbi_tags`, or the Python exception raised on the way.
The gate `if self.use_upos_constraints and self.use_lemma_constraints`
short-circuits, so the missing attribute is only read when
`use_upos_constraints` is true. -/
def forward_constrained_logits (labels : List String) (model : StreusleTaggerAttrs)
    (logits : List (List (List Int)))
    (batch_upos_tags batch_lemmas : List (List String)) :
    Except String (List (List (List Int))) :=
  if model.use_upos_constraints then do
    let use_lemma ← read_use_lemma_constraints model
    if use_lemma then do
      let mask ← get_upos_constraint_mask labels batch_upos_tags batch_lemmas
      Except.ok (replace_masked_values logits mask)
    else Except.ok logits
  else Except.ok logits

/-- Written from the spec's words (§4.2 of the specification), for comparison
with the embedded transition predicate: no transition targets `START` or
leaves `END`; from `START`, only `O`/`B`; into `END`, only from `O`/`I_`/`I~`;
otherwise one of the five disjuncts. -/
abbrev spec_allows_transition (f t : String) : Prop :=
  t ≠ "START" ∧ f ≠ "END" ∧
  ((f = "START" ∧ (t = "O" ∨ t = "B")) ∨
   (f ≠ "START" ∧ t = "END" ∧ (f = "O" ∨ f = "I_" ∨ f = "I~")) ∨
   (f ≠ "START" ∧ t ≠ "END" ∧
     (((f = "B" ∨ f = "o") ∧ (t = "o" ∨ t = "b" ∨ t = "I_" ∨ t = "I~")) ∨
      (f = "b" ∧ (t = "i_" ∨ t = "i~")) ∨
      (f = "O" ∧ (t = "O" ∨ t = "B")) ∨
      ((f = "I_" ∨ f = "I~") ∧ ¬(t = "i_" ∨ t = "i~")) ∨
      ((f = "i_" ∨ f = "i~") ∧ ¬(t = "O" ∨ t = "B")))))

/-- Written from the spec's words (§4.3 of the specification), for comparison
with the embedded compatibility predicate `is_allowed`. -/
abbrev spec_upos_lexcat_ok (upos lexcat : String) : Prop :=
  string_ends_with lexcat "!@" = true ∨
  upos = lexcat ∨
  ((upos = "NOUN" ∧ lexcat = "N") ∨ (upos = "PROPN" ∧ lexcat = "N") ∨
   (upos = "VERB" ∧ lexcat = "V") ∨ (upos = "ADP" ∧ lexcat = "P") ∨
   (upos = "ADV" ∧ lexcat = "P") ∨ (upos = "SCONJ" ∧ lexcat = "P") ∨
   (upos = "ADP" ∧ lexcat = "DISC") ∨ (upos = "ADV" ∧ lexcat = "DISC") ∨
   (upos = "SCONJ" ∧ lexcat = "DISC") ∨ (upos = "PART" ∧ lexcat = "POSS")) ∨
  (string_starts_with lexcat "INF" = true ∧ upos = "SCONJ") ∨
  (upos = "PRON" ∧ (lexcat = "PRON" ∨ lexcat = "PRON.POSS")) ∨
  (lexcat = "ADV" ∧ (upos = "ADV" ∨ upos = "PART"))

/-- A role sequence is valid when every consecutive pair is allowed by the
embedded transition predicate. -/
def transition_chain_allowed : List String → Bool
  | a :: b :: rest =>
    (match is_streusle_transition_allowed a b with
     | Except.ok true => true
     | _ => false) && transition_chain_allowed (b :: rest)
  | _ => true

/-- The involution swapping the underscore and tilde variants of the inside
roles and fixing every other role. -/
def swap_variant (r : String) : String :=
  if r = "I_" then "I~"
  else if r = "I~" then "I_"
  else if r = "i_" then "i~"
  else if r = "i~" then "i_"
  else r

theorem except_bind_ok {ε α β : Type} (a : α) (f : α → Except ε β) :
    (Except.ok a >>= f) = f a := rfl

theorem except_bind_error {ε α β : Type} (e : ε) (f : α → Except ε β) :
    ((Except.error e : Except ε α) >>= f) = Except.error e := rfl

theorem trans_ok_of_valid : ∀ f ∈ valid_tags, ∀ t ∈ valid_tags,
    is_streusle_transition_allowed f t = Except.ok (streusle_transition_bool f t) := by
  decide

theorem trans_error_of_invalid_from {f : String} (t : String) (hf : f ∉ valid_tags) :
    is_streusle_transition_allowed f t = Except.error ("Got invalid from_tag " ++ f) := by
  unfold is_streusle_transition_allowed
  rw [if_pos hf]

theorem trans_error_of_invalid_to {f t : String} (hf : f ∈ valid_tags) (ht : t ∉ valid_tags) :
    is_streusle_transition_allowed f t = Except.error ("Got invalid to_tag " ++ t) := by
  unfold is_streusle_transition_allowed
  rw [if_neg (not_not_intro hf), if_pos ht]

theorem trans_ok_inv {f t : String} {b : Bool}
    (h : is_streusle_transition_allowed f t = Except.ok b) :
    f ∈ valid_tags ∧ t ∈ valid_tags ∧ streusle_transition_bool f t = b := by
  by_cases hf : f ∈ valid_tags
  · by_cases ht : t ∈ valid_tags
    · refine ⟨hf, ht, ?_⟩
      rw [trans_ok_of_valid f hf t ht] at h
      exact Except.ok.inj h
    · rw [trans_error_of_invalid_to hf ht] at h
      cases h
  · rw [trans_error_of_invalid_from t hf] at h
    cases h

theorem transition_bool_to_start (f : String) :
    streusle_transition_bool f "START" = false := by
  simp [streusle_transition_bool]

theorem transition_bool_from_end (t : String) :
    streusle_transition_bool "END" t = false := by
  simp [streusle_transition_bool]

theorem mem_enum_from_lt {j : Nat} {x : String} :
    ∀ {i : Nat} {l : List String}, (j, x) ∈ enum_from i l → j < i + l.length := by
  intro i l
  induction l generalizing i with
  | nil => intro h; cases h
  | cons a rest ih =>
    intro h
    rcases List.mem_cons.mp h with h | h
    · have : j = i := congrArg Prod.fst h
      simp [this]
    · have := ih h
      simp only [List.length_cons]
      omega

theorem mem_enum_from_snd {j : Nat} {x : String} :
    ∀ {i : Nat} {l : List String}, (j, x) ∈ enum_from i l → x ∈ l := by
  intro i l
  induction l generalizing i with
  | nil => intro h; cases h
  | cons a rest ih =>
    intro h
    rcases List.mem_cons.mp h with h | h
    · rw [Prod.mk.injEq] at h
      exact h.2 ▸ List.mem_cons_self a rest
    · exact List.mem_cons_of_mem a (ih h)

theorem mem_enum_from_of_mem {x : String} :
    ∀ {i : Nat} {l : List String}, x ∈ l → ∃ j, (j, x) ∈ enum_from i l := by
  intro i l
  induction l generalizing i with
  | nil => intro h; cases h
  | cons a rest ih =>
    intro h
    rcases List.mem_cons.mp h with rfl | h
    · exact ⟨i, List.mem_cons_self _ _⟩
    · obtain ⟨j, hj⟩ := ih (i := i + 1) h
      exact ⟨j, List.mem_cons_of_mem _ hj⟩

theorem lwb_tags_valid {labels : List String}
    (h : ∀ l ∈ labels, (split_on_char '-' l).headD "" ∈ eight_roles) :
    ∀ p ∈ labels_with_boundaries labels, tag_of_label p.2 ∈ valid_tags := by
  intro p hp
  rw [labels_with_boundaries] at hp
  rcases List.mem_append.mp hp with henum | hb
  · obtain ⟨j, x⟩ := p
    have hx : x ∈ labels := mem_enum_from_snd henum
    have hhead := h x hx
    by_cases hs : x = "START" ∨ x = "END"
    · exfalso
      rcases hs with hs | hs <;> rw [hs] at hhead
      · exact absurd hhead (by decide)
      · exact absurd hhead (by decide)
    · show tag_of_label x ∈ valid_tags
      rw [tag_of_label, if_neg hs]
      have sub : ∀ y ∈ eight_roles, y ∈ valid_tags := by decide
      exact sub _ hhead
  · rcases List.mem_cons.mp hb with rfl | hb
    · exact (by decide : tag_of_label "START" ∈ valid_tags)
    · rcases List.mem_cons.mp hb with rfl | hb
      · exact (by decide : tag_of_label "END" ∈ valid_tags)
      · cases hb

theorem transitions_from_ok (fe : Nat × String) (tos : List (Nat × String))
    (hf : tag_of_label fe.2 ∈ valid_tags)
    (ht : ∀ te ∈ tos, tag_of_label te.2 ∈ valid_tags) :
    transitions_from fe tos = Except.ok (transitions_from_pure fe tos) := by
  induction tos with
  | nil => rfl
  | cons te rest ih =>
    have h1 := trans_ok_of_valid _ hf _ (ht te (List.mem_cons_self _ _))
    have h2 := ih (fun x hx => ht x (List.mem_cons_of_mem _ hx))
    cases hb : streusle_transition_bool (tag_of_label fe.2) (tag_of_label te.2) <;>
      simp [transitions_from, transitions_from_pure, h1, h2, hb, except_bind_ok,
            List.filter_cons]

theorem transitions_all_ok (tos froms : List (Nat × String))
    (htos : ∀ te ∈ tos, tag_of_label te.2 ∈ valid_tags)
    (hfroms : ∀ fe ∈ froms, tag_of_label fe.2 ∈ valid_tags) :
    transitions_all tos froms = Except.ok (transitions_all_pure tos froms) := by
  induction froms with
  | nil => rfl
  | cons fe rest ih =>
    have h1 := transitions_from_ok fe tos (hfroms fe (List.mem_cons_self _ _)) htos
    have h2 := ih (fun x hx => hfroms x (List.mem_cons_of_mem _ hx))
    simp [transitions_all, transitions_all_pure, h1, h2, except_bind_ok]

theorem mem_transitions_all_pure {tos froms : List (Nat × String)} {i j : Nat} :
    (i, j) ∈ transitions_all_pure tos froms ↔
      ∃ fe ∈ froms, ∃ te ∈ tos, fe.1 = i ∧ te.1 = j ∧
        streusle_transition_bool (tag_of_label fe.2) (tag_of_label te.2) = true := by
  simp only [transitions_all_pure, transitions_from_pure, List.mem_flatMap, List.mem_map,
             List.mem_filter, Prod.mk.injEq]
  constructor
  · rintro ⟨fe, hfe, te, ⟨hte, hbool⟩, hi, hj⟩
    exact ⟨fe, hfe, te, hte, hi, hj, hbool⟩
  · rintro ⟨fe, hfe, te, hte, hi, hj, hbool⟩
    exact ⟨fe, hfe, te, ⟨hte, hbool⟩, hi, hj⟩

theorem transitions_from_error (fe : Nat × String) (tos : List (Nat × String))
    (hbad : ∃ te ∈ tos, tag_of_label te.2 ∉ valid_tags) :
    ∃ e, transitions_from fe tos = Except.error e := by
  induction tos with
  | nil =>
    obtain ⟨te, hmem, _⟩ := hbad
    cases hmem
  | cons te rest ih =>
    by_cases hf : tag_of_label fe.2 ∈ valid_tags
    · by_cases ht : tag_of_label te.2 ∈ valid_tags
      · obtain ⟨x, hx, hxbad⟩ := hbad
        rcases List.mem_cons.mp hx with rfl | hx'
        · exact absurd ht hxbad
        · obtain ⟨e, he⟩ := ih ⟨x, hx', hxbad⟩
          refine ⟨e, ?_⟩
          rw [transitions_from, trans_ok_of_valid _ hf _ ht, except_bind_ok, he,
              except_bind_error]
      · refine ⟨"Got invalid to_tag " ++ tag_of_label te.2, ?_⟩
        rw [transitions_from, trans_error_of_invalid_to hf ht, except_bind_error]
    · refine ⟨"Got invalid from_tag " ++ tag_of_label fe.2, ?_⟩
      rw [transitions_from, trans_error_of_invalid_from _ hf, except_bind_error]

theorem transitions_all_error (tos froms : List (Nat × String))
    (hne : froms ≠ [])
    (hbad : ∃ te ∈ tos, tag_of_label te.2 ∉ valid_tags) :
    ∃ e, transitions_all tos froms = Except.error e := by
  cases froms with
  | nil => exact absurd rfl hne
  | cons fe rest =>
    obtain ⟨e, he⟩ := transitions_from_error fe tos hbad
    exact ⟨e, by rw [transitions_all, he, except_bind_error]⟩

/-- Claim C1: on the closed ten-role set, `is_streusle_transition_allowed`
returns `true` exactly when the spec's grammar permits the transition (never
into `START` or out of `END`; from `START` only to `O`/`B`; into `END` only
from `O`/`I_`/`I~`; otherwise one of the five disjuncts), and on the sequence
`START, O, B, o, i_` the first three transitions are allowed while `o → i_`
is the first disallowed one. -/
theorem is_streusle_transition_allowed_matches_spec :
    (∀ f ∈ valid_tags, ∀ t ∈ valid_tags,
      (is_streusle_transition_allowed f t = Except.ok true ↔ spec_allows_transition f t)) ∧
    is_streusle_transition_allowed "START" "O" = Except.ok true ∧
    is_streusle_transition_allowed "O" "B" = Except.ok true ∧
    is_streusle_transition_allowed "B" "o" = Except.ok true ∧
    is_streusle_transition_allowed "o" "i_" = Except.ok false := by
  decide

theorem is_streusle_transition_allowed_matches_spec_witness :
    is_streusle_transition_allowed "B" "I~" = Except.ok true ↔
      spec_allows_transition "B" "I~" :=
  is_streusle_transition_allowed_matches_spec.1 "B" (by decide) "I~" (by decide)

/-- Claim C3: on the closed UPOS and lexcat vocabularies, `is_allowed` returns
true exactly under the spec's conditions (the `!@` sentinel, literal equality,
the ten listed equivalences, `INF*`/`SCONJ`, `PRON` with `PRON`/`PRON.POSS`,
`ADV` with `ADV`/`PART`), with no lemma-conditioned exception active; in
particular `is_allowed PRON PRON.POSS` is true and `is_allowed PRON N` is
false. -/
theorem is_allowed_matches_spec :
    (∀ upos ∈ ALL_UPOS, ∀ lexcat ∈ ALL_LEXCATS,
      (is_allowed upos lexcat = true ↔ spec_upos_lexcat_ok upos lexcat)) ∧
    is_allowed "PRON" "PRON.POSS" = true ∧
    is_allowed "PRON" "N" = false := by
  decide

theorem is_allowed_matches_spec_witness :
    is_allowed "PRON" "PRON.POSS" = true ↔ spec_upos_lexcat_ok "PRON" "PRON.POSS" :=
  is_allowed_matches_spec.1 "PRON" (by decide) "PRON.POSS" (by decide)

/-- Claim C8: the mapping built by `get_upos_allowed_lexcats` has an entry for
every one of the 17 UPOS tags in `ALL_UPOS`, and each entry's set of allowed
lexcats is non-empty. -/
theorem get_upos_allowed_lexcats_complete :
    ∀ upos ∈ ALL_UPOS,
      (upos, upos_allowed_lexcats upos) ∈ get_upos_allowed_lexcats ∧
      upos_allowed_lexcats upos ≠ [] := by
  decide

theorem get_upos_allowed_lexcats_complete_witness :
    ("NOUN", upos_allowed_lexcats "NOUN") ∈ get_upos_allowed_lexcats ∧
    upos_allowed_lexcats "NOUN" ≠ [] :=
  get_upos_allowed_lexcats_complete "NOUN" (by decide)

/-- Claim C9: every role of the eight-symbol set occurs in some finite role
sequence that begins with `START`, ends with `END`, and whose consecutive
pairs are all allowed by `is_streusle_transition_allowed`. -/
theorem all_roles_reachable :
    ∀ r ∈ eight_roles, ∃ seq : List String,
      seq.head? = some "START" ∧ seq.getLast? = some "END" ∧ r ∈ seq ∧
      transition_chain_allowed seq = true := by
  intro r hr
  fin_cases hr
  · exact ⟨["START", "O", "END"], by decide⟩
  · exact ⟨["START", "B", "o", "I_", "END"], by decide⟩
  · exact ⟨["START", "B", "I_", "END"], by decide⟩
  · exact ⟨["START", "B", "b", "i_", "I_", "END"], by decide⟩
  · exact ⟨["START", "B", "I_", "END"], by decide⟩
  · exact ⟨["START", "B", "b", "i_", "I_", "END"], by decide⟩
  · exact ⟨["START", "B", "I~", "END"], by decide⟩
  · exact ⟨["START", "B", "b", "i~", "I~", "END"], by decide⟩

theorem all_roles_reachable_witness :
    ∃ seq : List String,
      seq.head? = some "START" ∧ seq.getLast? = some "END" ∧ "b" ∈ seq ∧
      transition_chain_allowed seq = true :=
  all_roles_reachable "b" (by decide)

/-- Claim C10: the transition predicate is invariant under the involution that
swaps the underscore and tilde variants of the inside roles. -/
theorem transition_variant_symmetry :
    ∀ a ∈ valid_tags, ∀ b ∈ valid_tags,
      is_streusle_transition_allowed (swap_variant a) (swap_variant b) =
        is_streusle_transition_allowed a b := by
  decide

theorem transition_variant_symmetry_witness :
    is_streusle_transition_allowed (swap_variant "I_") (swap_variant "i~") =
      is_streusle_transition_allowed "I_" "i~" :=
  transition_variant_symmetry "I_" (by decide) "i~" (by decide)

/-- Claim C5 (code bug): `get_upos_constraint_mask` never fills a row for a
real token — its inner loop tuple-unpacks each UPOS *string* into two
variables, so on the batch `[["NOUN"]]` with lemmas `[["dog"]]` it raises
`ValueError` instead of returning the mask whose row is the `NOUN`
admissibility vector. -/
theorem get_upos_constraint_mask_crashes :
    get_upos_constraint_mask ["O"] [["NOUN"]] [["dog"]] =
      Except.error "ValueError: cannot unpack NOUN into two values" := by
  decide

/-- Claim C6 (code bug): with `use_upos_constraints = True`, `forward` reads
`self.use_lemma_constraints`, which `__init__` never assigns, so every forward
invocation raises `AttributeError` before any logits/mask combination
happens. -/
theorem forward_constraint_path_crashes :
    ∀ (labels : List String) (logits : List (List (List Int)))
      (batch_upos_tags batch_lemmas : List (List String)),
      forward_constrained_logits labels (streusle_tagger_init true) logits
          batch_upos_tags batch_lemmas =
        Except.error
          "AttributeError: StreusleTagger object has no attribute use_lemma_constraints" := by
  intro labels logits batch_upos_tags batch_lemmas
  rfl

/-- Claim C7: `is_streusle_transition_allowed` errors exactly when a tag is
outside the closed ten-role set, the message names the offending role and the
side it appeared on (`from_tag` is checked first), and
`streusle_allowed_transitions` surfaces such an error instead of returning
any (partial) transition list. -/
theorem invalid_role_error_behavior :
    (∀ f t : String, f ∉ valid_tags →
      is_streusle_transition_allowed f t = Except.error ("Got invalid from_tag " ++ f)) ∧
    (∀ f t : String, f ∈ valid_tags → t ∉ valid_tags →
      is_streusle_transition_allowed f t = Except.error ("Got invalid to_tag " ++ t)) ∧
    (∀ f t : String, f ∈ valid_tags → t ∈ valid_tags →
      ∃ b, is_streusle_transition_allowed f t = Except.ok b) ∧
    (∀ labels : List String, (∃ l ∈ labels, tag_of_label l ∉ valid_tags) →
      ∃ e, streusle_allowed_transitions labels = Except.error e) := by
  refine ⟨fun f t hf => trans_error_of_invalid_from t hf,
          fun f t hf ht => trans_error_of_invalid_to hf ht,
          fun f t hf ht => ⟨_, trans_ok_of_valid f hf t ht⟩,
          ?_⟩
  intro labels ⟨l, hl, hbad⟩
  obtain ⟨j, hj⟩ := mem_enum_from_of_mem (i := 0) hl
  refine transitions_all_error _ _ ?_ ⟨(j, l), ?_, hbad⟩
  · rw [labels_with_boundaries]
    simp
  · rw [labels_with_boundaries]
    exact List.mem_append_left _ hj

theorem invalid_role_error_behavior_witness :
    is_streusle_transition_allowed "Z" "O" = Except.error "Got invalid from_tag Z" ∧
    is_streusle_transition_allowed "O" "Q" = Except.error "Got invalid to_tag Q" ∧
    (∃ b, is_streusle_transition_allowed "O" "B" = Except.ok b) ∧
    (∃ e, streusle_allowed_transitions ["Z-V"] = Except.error e) :=
  ⟨invalid_role_error_behavior.1 "Z" "O" (by decide),
   invalid_role_error_behavior.2.1 "O" "Q" (by decide) (by decide),
   invalid_role_error_behavior.2.2.1 "O" "B" (by decide) (by decide),
   invalid_role_error_behavior.2.2.2 ["Z-V"] ⟨"Z-V", by decide, by decide⟩⟩

/-- Claim C2: for a label vocabulary whose labels all decompose to roles in
the eight-symbol set, `streusle_allowed_transitions` succeeds and returns
exactly the index pairs — over the alphabet augmented with `START` at index
`num_labels` and `END` at `num_labels + 1` — whose decomposed roles the
transition predicate accepts; consequently no returned pair targets the
`START` index or originates from the `END` index. -/
theorem streusle_allowed_transitions_correct (labels : List String)
    (h : ∀ l ∈ labels, (split_on_char '-' l).headD "" ∈ eight_roles) :
    ∃ res, streusle_allowed_transitions labels = Except.ok res ∧
      (∀ i j : Nat, (i, j) ∈ res ↔
        ∃ li lj : String, (i, li) ∈ labels_with_boundaries labels ∧
          (j, lj) ∈ labels_with_boundaries labels ∧
          is_streusle_transition_allowed (tag_of_label li) (tag_of_label lj) =
            Except.ok true) ∧
      (∀ i : Nat, (i, labels.length) ∉ res) ∧
      (∀ j : Nat, (labels.length + 1, j) ∉ res) := by
  have hvalid := lwb_tags_valid h
  have hok : streusle_allowed_transitions labels =
      Except.ok (transitions_all_pure (labels_with_boundaries labels)
        (labels_with_boundaries labels)) :=
    transitions_all_ok _ _ hvalid hvalid
  refine ⟨_, hok, ?_, ?_, ?_⟩
  · intro i j
    rw [mem_transitions_all_pure]
    constructor
    · rintro ⟨fe, hfe, te, hte, hi, hj, hbool⟩
      refine ⟨fe.2, te.2, ?_, ?_, ?_⟩
      · rw [← hi]
        simpa using hfe
      · rw [← hj]
        simpa using hte
      · rw [trans_ok_of_valid _ (hvalid fe hfe) _ (hvalid te hte), hbool]
    · rintro ⟨li, lj, hli, hlj, hok2⟩
      obtain ⟨_, _, hb⟩ := trans_ok_inv hok2
      exact ⟨(i, li), hli, (j, lj), hlj, rfl, rfl, hb⟩
  · intro i hmem
    rw [mem_transitions_all_pure] at hmem
    obtain ⟨fe, hfe, te, hte, hi, hj, hbool⟩ := hmem
    rw [labels_with_boundaries] at hte
    rcases List.mem_append.mp hte with henum | hb
    · obtain ⟨tj, tl⟩ := te
      have := mem_enum_from_lt henum
      simp only at hj
      omega
    · rcases List.mem_cons.mp hb with rfl | hb
      · have hb2 : streusle_transition_bool (tag_of_label fe.2) "START" = true := by
          have he : tag_of_label "START" = "START" := by decide
          simpa [he] using hbool
        rw [transition_bool_to_start] at hb2
        cases hb2
      · rcases List.mem_cons.mp hb with rfl | hb
        · simp only at hj
          omega
        · cases hb
  · intro j hmem
    rw [mem_transitions_all_pure] at hmem
    obtain ⟨fe, hfe, te, hte, hi, hj, hbool⟩ := hmem
    rw [labels_with_boundaries] at hfe
    rcases List.mem_append.mp hfe with henum | hb
    · obtain ⟨fj, fl⟩ := fe
      have := mem_enum_from_lt henum
      simp only at hi
      omega
    · rcases List.mem_cons.mp hb with rfl | hb
      · simp only at hi
        omega
      · rcases List.mem_cons.mp hb with rfl | hb
        · have hb2 : streusle_transition_bool "END" (tag_of_label te.2) = true := by
            have he : tag_of_label "END" = "END" := by decide
            simpa [he] using hbool
          rw [transition_bool_from_end] at hb2
          cases hb2
        · cases hb

theorem streusle_allowed_transitions_correct_witness :
    ∃ res, streusle_allowed_transitions ["O"] = Except.ok res ∧
      (∀ i j : Nat, (i, j) ∈ res ↔
        ∃ li lj : String, (i, li) ∈ labels_with_boundaries ["O"] ∧
          (j, lj) ∈ labels_with_boundaries ["O"] ∧
          is_streusle_transition_allowed (tag_of_label li) (tag_of_label lj) =
            Except.ok true) ∧
      (∀ i : Nat, (i, 1) ∉ res) ∧
      (∀ j : Nat, (2, j) ∉ res) :=
  streusle_allowed_transitions_correct ["O"] (by decide)

/-- Claim C4: for every UPOS in `ALL_UPOS`, the per-UPOS admissibility vector
entry of a label is 1 exactly when the label is role-only (no dash), does not
start with `O-`/`o-`, or carries a lexcat allowed for that UPOS; under `NOUN`
the alphabet `O, O-N-n.person, O-V-v.cognition, B` yields the vector
`1, 1, 0, 1`. -/
theorem upos_label_mask_correct :
    (∀ upos ∈ ALL_UPOS, ∀ label : String,
      (upos_label_mask_entry upos label = 1 ↔
        ((split_on_char '-' label).length = 1 ∨
         ¬ (string_starts_with label "O-" = true ∨ string_starts_with label "o-" = true) ∨
         (split_on_char '-' label).getD 1 "" ∈ upos_allowed_lexcats upos))) ∧
    upos_label_mask "NOUN" ["O", "O-N-n.person", "O-V-v.cognition", "B"] = [1, 1, 0, 1] := by
  constructor
  · intro upos _ label
    unfold upos_label_mask_entry
    by_cases h1 : (split_on_char '-' label).length = 1
    · simp [h1]
    · rw [if_neg h1]
      by_cases h2 : ¬ string_starts_with label "O-" = true ∧
          ¬ string_starts_with label "o-" = true
      · rw [if_pos h2]
        constructor
        · intro _
          exact Or.inr (Or.inl (fun hor => hor.elim h2.1 h2.2))
        · intro _
          rfl
      · rw [if_neg h2]
        by_cases h3 : (split_on_char '-' label).getD 1 "" ∈ upos_allowed_lexcats upos
        · rw [if_pos h3]
          constructor
          · intro _
            exact Or.inr (Or.inr h3)
          · intro _
            rfl
        · rw [if_neg h3]
          constructor
          · intro h0
            exact absurd h0 (by decide)
          · intro hr
            rcases hr with hr | hr | hr
            · exact absurd hr h1
            · exact absurd ⟨fun ha => hr (Or.inl ha), fun hb => hr (Or.inr hb)⟩ h2
            · exact absurd hr h3
  · decide

theorem upos_label_mask_correct_witness :
    upos_label_mask_entry "NOUN" "O-V-v.cognition" = 1 ↔
      ((split_on_char '-' "O-V-v.cognition").length = 1 ∨
       ¬ (string_starts_with "O-V-v.cognition" "O-" = true ∨
          string_starts_with "O-V-v.cognition" "o-" = true) ∨
       (split_on_char '-' "O-V-v.cognition").getD 1 "" ∈ upos_allowed_lexcats "NOUN") :=
  upos_label_mask_correct.1 "NOUN" (by decide) "O-V-v.cognition"
